import Mathlib

/-!
Verification of the security gate, result shaper and connection pool of
`mcp-sql-paas-universal` (files `src/core/security.py` and
`src/core/connection_pool.py`), as a shallow embedding in Lean.

Strings are embedded as `List Char`; the character classes used by the
Python code (`\w`, `\s`, `str.isdigit`, `str.upper`, `str.lower`,
`re.IGNORECASE`) are modelled over the ASCII range, which covers every
character the analysed inputs and patterns contain.
-/

/-! ## Security gate: `SecurityManager.sanitize_identifier` -/

/-- The character class `[a-zA-Z0-9_.]` of the regex in
`sanitize_identifier` (security.py line 133). -/
def allowedIdentChar (c : Char) : Bool :=
  ('a' ≤ c && c ≤ 'z') || ('A' ≤ c && c ≤ 'Z') || ('0' ≤ c && c ≤ '9')
    || c = '_' || c = '.'

/-- `SecurityManager.sanitize_identifier` (security.py lines 126-139):
`re.sub(r'[^a-zA-Z0-9_.]', '', identifier)` deletes every character outside
the class, then a leading digit gets an underscore prepended. -/
def sanitize_identifier (s : List Char) : List Char :=
  match s.filter allowedIdentChar with
  | [] => []
  | c :: t => if c.isDigit then '_' :: c :: t else c :: t

/-! ## Result shaper: `SecurityManager.mask_sensitive_data` -/

/-- A cell value of a result row: Python `None`, a `str`, or any other
non-null value (the code only distinguishes these three shapes). -/
inductive Value where
  | null : Value
  | str : List Char → Value
  | num : Int → Value
deriving DecidableEq, Repr

/-- Masking of one string value (security.py lines 170-174): keep the first
two and last two characters of a string longer than 4 and star the
interior, else replace the whole value with `'****'`. -/
def maskChars (s : List Char) : List Char :=
  if 4 < s.length then
    s.take 2 ++ List.replicate (s.length - 4) '*' ++ s.drop (s.length - 2)
  else
    ['*', '*', '*', '*']

/-- Lower-casing as used by `key.lower()` / `col.lower()` (ASCII). -/
def lowerChars (s : List Char) : List Char := s.map Char.toLower

/-- Python's substring test `needle in hay` on character lists. -/
def containsSub (needle hay : List Char) : Bool :=
  needle.isPrefixOf hay ||
    match hay with
    | [] => false
    | _ :: t => containsSub needle t

/-- `should_mask` (security.py lines 163-166): some sensitive column name
occurs, lower-cased, as a substring of the lower-cased key. -/
def shouldMask (sensitiveCols : List (List Char)) (key : List Char) : Bool :=
  sensitiveCols.any fun c => containsSub (lowerChars c) (lowerChars key)

/-- The per-field transform of `mask_sensitive_data` (security.py lines
159-178): a matched non-null string is masked by `maskChars`, any other
matched non-null value becomes `'****'`, everything else passes through. -/
def maskField (sensitiveCols : List (List Char)) (key : List Char)
    (v : Value) : Value :=
  if shouldMask sensitiveCols key ∧ v ≠ Value.null then
    match v with
    | Value.str s => Value.str (maskChars s)
    | _ => Value.str ['*', '*', '*', '*']
  else v

/-- `SecurityManager.mask_sensitive_data` (security.py lines 141-180) over a
row represented as an ordered association list. -/
def mask_sensitive_data (row : List (List Char × Value))
    (sensitiveCols : List (List Char)) : List (List Char × Value) :=
  row.map fun kv => (kv.1, maskField sensitiveCols kv.1 kv.2)

/-! ## Security gate: `SecurityManager.validate_query`

The write / injection patterns of security.py lines 51-77 use only a small
regex vocabulary: case-insensitive literals, `\b`, `\s+`, `\s*`, `\w+`, one
alternation group of plain literals, and one optional group of a plain
literal.  Each compiled pattern is transcribed into the `RE` vocabulary
below and matched with an explicit backtracking matcher (`re.search`
semantics: a match may start at any position). -/

/-- One element of a transcribed regex. -/
inductive RE where
  | wb : RE
  | lit : List Char → RE
  | ws0 : RE
  | ws1 : RE
  | word1 : RE
  | alts : List (List Char) → RE
  | opt : List Char → RE
deriving Repr

/-- `\w` over ASCII: `[a-zA-Z0-9_]`. -/
def isWordC (c : Char) : Bool := c.isAlpha || c.isDigit || c = '_'

/-- `\s` over ASCII: space, tab, newline, carriage return, form feed,
vertical tab. -/
def isSpaceC (c : Char) : Bool :=
  c = ' ' || c = '\t' || c = '\n' || c = '\r' || c = Char.ofNat 11 || c = Char.ofNat 12

/-- Case-insensitive character comparison (`re.IGNORECASE`, ASCII). -/
def lowEq (a b : Char) : Bool := a.toLower = b.toLower

/-- A `\b` word boundary between the previous character (none at the start)
and the next character (none at the end). -/
def boundary (prev next : Option Char) : Bool :=
  (match prev with | none => false | some c => isWordC c)
    != (match next with | none => false | some c => isWordC c)

/-- Consume a case-insensitive literal; returns the remaining input and the
new previous character. -/
def consumeLit : List Char → List Char → Option Char →
    Option (List Char × Option Char)
  | [], l, prev => some (l, prev)
  | _ :: _, [], _ => none
  | p :: ps, c :: cs, _ => if lowEq c p then consumeLit ps cs (some c) else none

/-- Backtracking matcher for a transcribed pattern at the current position,
with fuel (each recursive call drops one element or one input character, so
`elems.length + l.length + 1` fuel is always enough). -/
def matchElems : Nat → List RE → List Char → Option Char → Bool
  | 0, _, _, _ => false
  | _ + 1, [], _, _ => true
  | fuel + 1, RE.wb :: rest, l, prev =>
      boundary prev l.head? && matchElems fuel rest l prev
  | fuel + 1, RE.lit s :: rest, l, prev =>
      match consumeLit s l prev with
      | some (l', prev') => matchElems fuel rest l' prev'
      | none => false
  | fuel + 1, RE.ws0 :: rest, l, prev =>
      matchElems fuel rest l prev ||
        match l with
        | c :: cs => isSpaceC c && matchElems fuel (RE.ws0 :: rest) cs (some c)
        | [] => false
  | fuel + 1, RE.ws1 :: rest, l, _ =>
      match l with
      | c :: cs => isSpaceC c &&
          (matchElems fuel rest cs (some c) ||
            matchElems fuel (RE.ws1 :: rest) cs (some c))
      | [] => false
  | fuel + 1, RE.word1 :: rest, l, _ =>
      match l with
      | c :: cs => isWordC c &&
          (matchElems fuel rest cs (some c) ||
            matchElems fuel (RE.word1 :: rest) cs (some c))
      | [] => false
  | fuel + 1, RE.alts ss :: rest, l, prev =>
      ss.any fun s =>
        match consumeLit s l prev with
        | some (l', prev') => matchElems fuel rest l' prev'
        | none => false
  | fuel + 1, RE.opt s :: rest, l, prev =>
      (match consumeLit s l prev with
       | some (l', prev') => matchElems fuel rest l' prev'
       | none => false) || matchElems fuel rest l prev

/-- Try the pattern at every start position (`re.search`). -/
def searchFrom (p : List RE) : List Char → Option Char → Bool
  | l, prev =>
      matchElems (p.length + l.length + 1) p l prev ||
        match l with
        | [] => false
        | c :: cs => searchFrom p cs (some c)

/-- `pattern.search(query)` as a boolean. -/
def reSearch (p : List RE) (q : List Char) : Bool := searchFrom p q none

/-- `SecurityManager.WRITE_PATTERNS` (security.py lines 51-62), transcribed
pattern by pattern. -/
def WRITE_PATTERNS : List (List RE) :=
  [ [RE.wb, RE.lit "INSERT".data, RE.ws1, RE.lit "INTO".data, RE.wb],
    [RE.wb, RE.lit "UPDATE".data, RE.ws1, RE.word1, RE.ws1, RE.lit "SET".data, RE.wb],
    [RE.wb, RE.lit "DELETE".data, RE.ws1, RE.lit "FROM".data, RE.wb],
    [RE.wb, RE.lit "DROP".data, RE.ws1,
      RE.alts ["TABLE".data, "DATABASE".data, "INDEX".data, "VIEW".data, "SCHEMA".data], RE.wb],
    [RE.wb, RE.lit "TRUNCATE".data, RE.ws1, RE.lit "TABLE".data, RE.wb],
    [RE.wb, RE.lit "ALTER".data, RE.ws1,
      RE.alts ["TABLE".data, "DATABASE".data, "INDEX".data, "VIEW".data, "SCHEMA".data], RE.wb],
    [RE.wb, RE.lit "CREATE".data, RE.ws1,
      RE.alts ["TABLE".data, "DATABASE".data, "INDEX".data, "VIEW".data, "SCHEMA".data], RE.wb],
    [RE.wb, RE.lit "GRANT".data, RE.wb],
    [RE.wb, RE.lit "REVOKE".data, RE.wb],
    [RE.wb, RE.lit "EXEC".data, RE.opt "UTE".data, RE.ws1] ]

/-- The apostrophe character, written by code point. -/
def quoteC : Char := Char.ofNat 39

/-- `SecurityManager.INJECTION_PATTERNS` (security.py lines 65-77),
transcribed pattern by pattern. -/
def INJECTION_PATTERNS : List (List RE) :=
  [ [RE.lit ";".data, RE.ws0, RE.lit "--".data],
    [RE.lit [quoteC], RE.ws0, RE.lit "OR".data, RE.ws1, RE.lit [quoteC]],
    [RE.lit [quoteC], RE.ws0, RE.lit "OR".data, RE.ws1, RE.lit "1".data,
      RE.ws0, RE.lit "=".data, RE.ws0, RE.lit "1".data],
    [RE.lit "UNION".data, RE.ws1, RE.lit "SELECT".data],
    [RE.lit "INTO".data, RE.ws1, RE.lit "OUTFILE".data],
    [RE.lit "LOAD_FILE".data],
    [RE.lit "BENCHMARK".data, RE.ws0, RE.lit "(".data],
    [RE.lit "SLEEP".data, RE.ws0, RE.lit "(".data],
    [RE.lit "WAITFOR".data, RE.ws1, RE.lit "DELAY".data],
    [RE.lit "xp_cmdshell".data],
    [RE.lit "sp_executesql".data] ]

/-- The fields of `SecurityConfig` (security.py lines 18-36) that
`validate_query` reads. -/
structure SecurityConfig where
  read_only : Bool
  blocked_keywords : List (List Char)
  blocked_tables : List (List Char)
  max_query_length : Nat
deriving Repr

/-- The default `SecurityConfig` field values (security.py lines 21-35). -/
def defaultSecurityConfig : SecurityConfig :=
  { read_only := true
    blocked_keywords :=
      [ "DROP".data, "DELETE".data, "UPDATE".data, "INSERT".data,
        "ALTER".data, "CREATE".data, "TRUNCATE".data, "GRANT".data,
        "REVOKE".data, "EXEC".data, "EXECUTE".data,
        "xp_".data, "sp_".data, "--".data, ";--".data, "/*".data, "*/".data ]
    blocked_tables := []
    max_query_length := 10000 }

/-- One constructor per return site of `validate_query`
(security.py lines 87-124). -/
inductive Verdict where
  | accepted : Verdict
  | emptyRequest : Verdict
  | tooLong : Verdict
  | writeInReadOnly : Verdict
  | suspiciousPattern : Verdict
  | blockedKeyword : List Char → Verdict
  | blockedTable : List Char → Verdict
deriving DecidableEq, Repr

/-- Upper-casing as used by `query.upper()` / `keyword.upper()` (ASCII). -/
def upperChars (s : List Char) : List Char := s.map Char.toUpper

/-- Whether some write pattern matches the query (security.py lines 103-105). -/
def hitsWrite (q : List Char) : Bool := WRITE_PATTERNS.any fun p => reSearch p q

/-- Whether some injection pattern matches the query (security.py lines
108-111). -/
def hitsInjection (q : List Char) : Bool :=
  INJECTION_PATTERNS.any fun p => reSearch p q

/-- First blocked keyword contained, upper-cased, in the upper-cased query
(security.py lines 114-117). -/
def firstBlockedKeyword (cfg : SecurityConfig) (q : List Char) :
    Option (List Char) :=
  cfg.blocked_keywords.find? fun k => containsSub (upperChars k) (upperChars q)

/-- First blocked table matched as a whole word,
`re.search(rf"\b{re.escape(table)}\b", query, re.IGNORECASE)`
(security.py lines 120-122). -/
def firstBlockedTable (cfg : SecurityConfig) (q : List Char) :
    Option (List Char) :=
  cfg.blocked_tables.find? fun t => reSearch [RE.wb, RE.lit t, RE.wb] q

/-- `SecurityManager.validate_query` (security.py lines 87-124); each early
return of the Python function becomes one branch, in source order.
`not query or not query.strip()` holds exactly when every character is
whitespace (both empty and whitespace-only strings). -/
def validate_query (cfg : SecurityConfig) (q : List Char) : Verdict :=
  if q.all isSpaceC then Verdict.emptyRequest
  else if cfg.max_query_length < q.length then Verdict.tooLong
  else if cfg.read_only && hitsWrite q then Verdict.writeInReadOnly
  else if hitsInjection q then Verdict.suspiciousPattern
  else
    match firstBlockedKeyword cfg q with
    | some k => Verdict.blockedKeyword k
    | none =>
        match firstBlockedTable cfg q with
        | some t => Verdict.blockedTable t
        | none => Verdict.accepted

example : sanitize_identifier "1secret;DROP".data = "_1secretDROP".data := by decide
example : validate_query defaultSecurityConfig "SELECT * FROM users; --".data
    = Verdict.suspiciousPattern := by decide
example : validate_query defaultSecurityConfig "DELETE FROM users".data
    = Verdict.writeInReadOnly := by decide
/-- A `SecurityConfig` with `read_only=False` and empty keyword/table
lists (`SecurityConfig(read_only=False, blocked_keywords=[],
blocked_tables=[])`). -/
def rwEmptyConfig : SecurityConfig :=
  { read_only := false
    blocked_keywords := []
    blocked_tables := []
    max_query_length := 10000 }

/-- A `SecurityConfig` with `read_only=True` and empty keyword/table
lists (`SecurityConfig(read_only=True, blocked_keywords=[],
blocked_tables=[])`). -/
def roEmptyConfig : SecurityConfig :=
  { read_only := true
    blocked_keywords := []
    blocked_tables := []
    max_query_length := 10000 }

/-! ## Connection pool: `ConnectionPoolManager` (connection_pool.py)

The pool's counters are embedded as a state machine.  `idle` is the number
of wrappers in `self._pool` (the `asyncio.Queue` of capacity `max_size`),
`checkedOut` the number of wrappers currently held by callers between the
`yield` of `acquire` and the `finally` block, and `active` the
`self._active_connections` bookkeeping counter.  The operations are the
pool's public methods, run to completion one at a time (the sequential
semantics the claims quantify over); `initIter` is one iteration of the
`initialize` loop and the guard `idle < maxSize` models `self._pool.put`
blocking on a full queue.  In `acquire`, the recycle and health-check
replacements swap the wrapper without touching any counter, so they do not
appear in the counter state; the success path is modelled (the failure
paths leave the counters unchanged or restore them in `finally`). -/

/-- The two `PoolConfig` fields the counter dynamics read
(connection_pool.py lines 23-24). -/
structure PoolCfg where
  minSize : Nat
  maxSize : Nat
deriving DecidableEq, Repr

/-- Pool counter state. -/
structure PoolState where
  idle : Nat
  checkedOut : Nat
  active : Nat
deriving DecidableEq, Repr

/-- A freshly constructed pool (connection_pool.py lines 56-62): empty
queue, zero active connections. -/
def freshPool : PoolState := { idle := 0, checkedOut := 0, active := 0 }

/-- The pool operations of the claims.  A full `initialize()` call performs
`minSize` consecutive `initIter` steps. -/
inductive PoolOp where
  | initIter : PoolOp
  | acquire : PoolOp
  | release : PoolOp
  | shutdown : PoolOp
deriving DecidableEq, Repr

/-- The `finally` block of `acquire` (connection_pool.py lines 186-195),
which is where a caller releases a wrapper: `put_nowait` back into the
queue, and on `QueueFull` close the connection and decrement the active
count.  The returned boolean records whether `_close_connection` was
invoked on the released wrapper. -/
def releaseStep (cfg : PoolCfg) (s : PoolState) : Bool × PoolState :=
  if s.idle < cfg.maxSize then
    (false, { s with idle := s.idle + 1, checkedOut := s.checkedOut - 1 })
  else
    (true, { s with checkedOut := s.checkedOut - 1, active := s.active - 1 })

/-- One pool operation on the counter state.
* `initIter`: one iteration of the `initialize` loop (lines 88-96): create,
  `put` (blocks unless `idle < maxSize`), increment `active`.
* `acquire` (lines 140-184): pop an idle wrapper if one is available;
  otherwise, after the timeout, create an overflow connection under the
  lock if `active < maxSize`, else raise `TimeoutError` (state unchanged).
* `release`: the `finally` block via `releaseStep` (no-op if nothing is
  checked out).
* `shutdown` (`close()`, lines 106-127): cancel the health task, drain and
  close every idle wrapper, set `_active_connections = 0`; checked-out
  wrappers are untouched. -/
def applyOp (cfg : PoolCfg) (s : PoolState) : PoolOp → PoolState
  | PoolOp.initIter =>
      if s.idle < cfg.maxSize then
        { s with idle := s.idle + 1, active := s.active + 1 }
      else s
  | PoolOp.acquire =>
      if 0 < s.idle then
        { s with idle := s.idle - 1, checkedOut := s.checkedOut + 1 }
      else if s.active < cfg.maxSize then
        { s with checkedOut := s.checkedOut + 1, active := s.active + 1 }
      else s
  | PoolOp.release =>
      if 0 < s.checkedOut then (releaseStep cfg s).2 else s
  | PoolOp.shutdown =>
      { idle := 0, checkedOut := s.checkedOut, active := 0 }

/-- Run a sequence of pool operations from a state. -/
def runOps (cfg : PoolCfg) (s : PoolState) (ops : List PoolOp) : PoolState :=
  ops.foldl (applyOp cfg) s

/-- The `initialize()` loop (connection_pool.py lines 88-96) with an
explicit factory: `createOk` lists the outcome of each successive
`_create_connection()` call (`false` = the call raises).  Returns whether
the loop completed without an exception, together with the pool state the
loop leaves behind.  On an exception the loop stops at once and the
exception propagates; connections already created stay in the queue and in
the active count.  The loop is used under states in which the queue stays
below its capacity, so `put` never blocks. -/
def initLoop : Nat → List Bool → PoolState → Bool × PoolState
  | 0, _, s => (true, s)
  | n + 1, oks, s =>
      if oks.headD true then
        initLoop n oks.tail { s with idle := s.idle + 1, active := s.active + 1 }
      else (false, s)

/-- `initialize()` (connection_pool.py lines 79-104): run the creation
loop; the health-check background task is created only after the loop, so
it starts exactly when the loop completed.  Result:
`(completed, healthTaskStarted, state)`. -/
def runInit (cfg : PoolCfg) (createOk : List Bool) :
    Bool × Bool × PoolState :=
  let r := initLoop cfg.minSize createOk freshPool
  (r.1, r.1, r.2)

/-- Pydantic field validation of `PoolConfig` (connection_pool.py lines
23-24): `min_size: int, ge=1, le=10` and `max_size: int, ge=1, le=50`.
These are the only constraints; nothing relates the two fields. -/
def validPoolConfig (minS maxS : Int) : Bool :=
  1 ≤ minS && minS ≤ 10 && 1 ≤ maxS && maxS ≤ 50

/-- The live connection count of a pool state: wrappers in the idle queue
plus wrappers held by callers. -/
def liveCount (s : PoolState) : Nat := s.idle + s.checkedOut

/-- Traces allowed after a `shutdown`: only further releases (and redundant
shutdowns). -/
def tailOpsOk : List PoolOp → Bool
  | [] => true
  | PoolOp.release :: r => tailOpsOk r
  | PoolOp.shutdown :: r => tailOpsOk r
  | _ => false

/-- Traces allowed after initialization: acquires and releases, optionally
ending in a shutdown phase. -/
def midOpsOk : List PoolOp → Bool
  | [] => true
  | PoolOp.acquire :: r => midOpsOk r
  | PoolOp.release :: r => midOpsOk r
  | PoolOp.shutdown :: r => tailOpsOk r
  | PoolOp.initIter :: _ => false

/-- A well-formed operation sequence: one leading `Initialize` (a block of
`initIter` steps), then `Acquire`/`Release` traffic, then at most one
`Shutdown` followed only by `Release` operations.  The predicate is closed
under prefixes, so bounding the state at the end of every well-formed
trace bounds every intermediate state as well. -/
def goodTrace : List PoolOp → Bool
  | PoolOp.initIter :: r => goodTrace r
  | ops => midOpsOk ops

/-! ## Theorems -/

/-- Claim C2 (counterexample): `sanitize_identifier("1secret;DROP")` is not
the spec's expected literal `"_secretDROP"` — the code's character class
keeps digits. -/
theorem C2_sanitize_example_not_spec_literal :
    sanitize_identifier "1secret;DROP".data ≠ "_secretDROP".data := by decide

/-- Claim C2 (amended): `sanitize_identifier("1secret;DROP")` strips the
semicolon, keeps the digit, and prepends an underscore for the leading
digit, returning exactly `"_1secretDROP"`. -/
theorem C2_sanitize_example_value :
    sanitize_identifier "1secret;DROP".data = "_1secretDROP".data := by decide

/-- Claim C8 (counterexample): `PoolConfig` field validation accepts
`min_size = 10, max_size = 5`, whose minimum exceeds its maximum. -/
theorem C8_poolconfig_accepts_min_gt_max :
    validPoolConfig 10 5 = true ∧ ¬ ((10 : Int) ≤ 5) := by decide

/-- Claim C8 (amended): an accepted `PoolConfig` satisfies exactly the
per-field bounds `1 ≤ min_size ≤ 10` and `1 ≤ max_size ≤ 50`; the relation
`min_size ≤ max_size` is not enforced, and a configuration with
`min_size > max_size` is accepted. -/
theorem C8_poolconfig_field_bounds :
    (∀ m M : Int, validPoolConfig m M = true →
      1 ≤ m ∧ m ≤ 10 ∧ 1 ≤ M ∧ M ≤ 50)
    ∧ (validPoolConfig 10 5 = true ∧ ¬ ((10 : Int) ≤ 5)) := by
  constructor
  · intro m M h
    simp only [validPoolConfig, Bool.and_eq_true, decide_eq_true_eq] at h
    exact ⟨h.1.1.1, h.1.1.2, h.1.2, h.2⟩
  · exact ⟨by decide, by decide⟩

/-- Claim C8 witness: the first part of `C8_poolconfig_field_bounds`
applied to the accepted configuration `(2, 10)`. -/
theorem C8_poolconfig_field_bounds_witness :
    1 ≤ (2 : Int) ∧ (2 : Int) ≤ 10 ∧ 1 ≤ (10 : Int) ∧ (10 : Int) ≤ 50 :=
  C8_poolconfig_field_bounds.1 2 10 (by decide)

/-- Claim C9: with `read_only=True` and empty blocked-keyword and
blocked-table lists, `"DELETE 1"` contains the keyword `DELETE` as a whole
word but matches none of the hard-coded write patterns (which require
`DELETE FROM`), so it is accepted, while `"DELETE FROM t"` is rejected as
a write in read-only mode. -/
theorem C9_write_check_structured_forms_only :
    hitsWrite "DELETE 1".data = false
    ∧ validate_query roEmptyConfig "DELETE 1".data = Verdict.accepted
    ∧ validate_query roEmptyConfig "DELETE FROM t".data
        = Verdict.writeInReadOnly := by decide

/-- A list that came out of `List.filter` is unchanged by filtering again. -/
theorem filter_mem_allowed (s : List Char) :
    ∀ a ∈ s.filter allowedIdentChar, allowedIdentChar a = true :=
  fun _ ha => (List.mem_filter.mp ha).2

/-- Claim C10: `sanitize_identifier` is idempotent — its output contains
only characters of `[a-zA-Z0-9_.]` and never starts with a digit, so a
second pass filters nothing and prepends nothing. -/
theorem C10_sanitize_identifier_idempotent :
    ∀ s : List Char,
      sanitize_identifier (sanitize_identifier s) = sanitize_identifier s := by
  intro s
  cases h : s.filter allowedIdentChar with
  | nil =>
      have h1 : sanitize_identifier s = [] := by
        rw [sanitize_identifier, h]
      rw [h1]
      rw [sanitize_identifier]
      rfl
  | cons c t =>
      have hct : ∀ a ∈ c :: t, allowedIdentChar a = true := by
        rw [← h]; exact filter_mem_allowed s
      have hfct : (c :: t).filter allowedIdentChar = c :: t :=
        List.filter_eq_self.mpr hct
      by_cases hd : c.isDigit
      · have h1 : sanitize_identifier s = '_' :: c :: t := by
          rw [sanitize_identifier, h]; simp [hd]
        have hfu : ('_' :: c :: t).filter allowedIdentChar = '_' :: c :: t := by
          rw [List.filter_cons_of_pos (by decide), hfct]
        rw [h1, sanitize_identifier, hfu]; simp
      · have h1 : sanitize_identifier s = c :: t := by
          rw [sanitize_identifier, h]; simp [hd]
        rw [h1, sanitize_identifier, hfct]; simp [hd]

/-- `maskChars` preserves the length of a string longer than 4. -/
theorem maskChars_length (s : List Char) (h : 4 < s.length) :
    (maskChars s).length = s.length := by
  rw [maskChars, if_pos h]
  simp only [List.length_append, List.length_take, List.length_replicate,
    List.length_drop]
  omega

/-- `maskChars` is idempotent: a masked long string keeps its first two and
last two characters and its starred interior, a masked short string is the
4-character token, which masks to itself. -/
theorem maskChars_idem (s : List Char) : maskChars (maskChars s) = maskChars s := by
  by_cases h : 4 < s.length
  · have hA : (s.take 2).length = 2 := by
      simp only [List.length_take]; omega
    have hAB : (s.take 2 ++ List.replicate (s.length - 4) '*').length
        = s.length - 2 := by
      simp only [List.length_append, List.length_replicate, hA]; omega
    have hT : (maskChars s).length = s.length := maskChars_length s h
    rw [maskChars, if_pos (hT ▸ h : 4 < (maskChars s).length), hT]
    rw [maskChars, if_pos h]
    have h1 : (s.take 2 ++ List.replicate (s.length - 4) '*'
        ++ s.drop (s.length - 2)).take 2 = s.take 2 := by
      rw [List.append_assoc]
      exact List.take_left' hA
    have h2 : (s.take 2 ++ List.replicate (s.length - 4) '*'
        ++ s.drop (s.length - 2)).drop (s.length - 2)
        = s.drop (s.length - 2) := List.drop_left' hAB
    rw [h1, h2]
  · have hin : maskChars s = ['*', '*', '*', '*'] := by
      rw [maskChars, if_neg h]
    rw [hin]
    rw [maskChars]
    rfl

/-- Applying `maskField` twice is the same as applying it once. -/
theorem maskField_idem (sens : List (List Char)) (k : List Char) (v : Value) :
    maskField sens k (maskField sens k v) = maskField sens k v := by
  by_cases hm : shouldMask sens k = true
  · cases v with
    | null => simp [maskField]
    | str s => simp [maskField, hm, maskChars_idem]
    | num n => simp [maskField, hm, maskChars]
  · simp [maskField, hm]

/-- Claim C5: `mask_sensitive_data` is idempotent on every row and every
sensitive-column list. -/
theorem C5_mask_idempotent :
    ∀ (row : List (List Char × Value)) (sens : List (List Char)),
      mask_sensitive_data (mask_sensitive_data row sens) sens
        = mask_sensitive_data row sens := by
  intro row sens
  unfold mask_sensitive_data
  induction row with
  | nil => rfl
  | cons kv r ih =>
      simp only [List.map_cons, maskField_idem, ih]

/-- Claim C4: the field-level behaviour of `mask_sensitive_data` — a
matched non-null string longer than 4 characters keeps its first two and
last two characters around a starred interior of length `len - 4`
(preserving the length), any other matched non-null value becomes the
4-character token `"****"`, unmatched or null fields pass through
unchanged; and the spec's concrete example row masks as stated. -/
theorem C4_mask_field_semantics :
    (∀ (sens : List (List Char)) (k : List Char) (s : List Char),
      shouldMask sens k = true → 4 < s.length →
        maskField sens k (Value.str s)
          = Value.str (s.take 2 ++ List.replicate (s.length - 4) '*'
              ++ s.drop (s.length - 2))
        ∧ (maskChars s).length = s.length)
    ∧ (∀ (sens : List (List Char)) (k : List Char) (s : List Char),
      shouldMask sens k = true → s.length ≤ 4 →
        maskField sens k (Value.str s) = Value.str "****".data)
    ∧ (∀ (sens : List (List Char)) (k : List Char) (n : Int),
      shouldMask sens k = true →
        maskField sens k (Value.num n) = Value.str "****".data)
    ∧ (∀ (sens : List (List Char)) (k : List Char) (v : Value),
      shouldMask sens k = false → maskField sens k v = v)
    ∧ (∀ (sens : List (List Char)) (k : List Char),
      maskField sens k Value.null = Value.null)
    ∧ mask_sensitive_data
        [("password".data, Value.str "hunter2".data),
         ("name".data, Value.str "Ann".data)] ["password".data]
        = [("password".data, Value.str "hu***r2".data),
           ("name".data, Value.str "Ann".data)] := by
  refine ⟨?_, ?_, ?_, ?_, ?_, ?_⟩
  · intro sens k s hm hl
    constructor
    · simp [maskField, hm, maskChars, hl]
    · exact maskChars_length s hl
  · intro sens k s hm hl
    simp [maskField, hm, maskChars, Nat.not_lt.mpr hl]
  · intro sens k n hm
    simp [maskField, hm]
  · intro sens k v hm
    simp [maskField, hm]
  · intro sens k
    simp [maskField]
  · decide

/-- Claim C4 witness: the first part of `C4_mask_field_semantics` applied
to the spec's example field `password = "hunter2"`. -/
theorem C4_mask_field_semantics_witness :
    maskField ["password".data] "password".data (Value.str "hunter2".data)
      = Value.str ("hunter2".data.take 2
          ++ List.replicate ("hunter2".data.length - 4) '*'
          ++ "hunter2".data.drop ("hunter2".data.length - 2))
    ∧ (maskChars "hunter2".data).length = "hunter2".data.length :=
  C4_mask_field_semantics.1 ["password".data] "password".data "hunter2".data
    (by decide) (by decide)

/-- Claim C3: `validate_query` is an ordered pipeline in which the first
matching rule determines the verdict — whitespace-only text, then
over-long text, then (in read-only mode) a write pattern, then an
injection pattern, then the first blocked keyword, then the first blocked
table, else accepted; and the spec's three concrete examples evaluate as
stated. -/
theorem C3_validate_query_pipeline :
    (∀ (cfg : SecurityConfig) (q : List Char),
      q.all isSpaceC = true → validate_query cfg q = Verdict.emptyRequest)
    ∧ (∀ (cfg : SecurityConfig) (q : List Char),
      q.all isSpaceC = false → cfg.max_query_length < q.length →
        validate_query cfg q = Verdict.tooLong)
    ∧ (∀ (cfg : SecurityConfig) (q : List Char),
      q.all isSpaceC = false → q.length ≤ cfg.max_query_length →
        cfg.read_only = true → hitsWrite q = true →
        validate_query cfg q = Verdict.writeInReadOnly)
    ∧ (∀ (cfg : SecurityConfig) (q : List Char),
      q.all isSpaceC = false → q.length ≤ cfg.max_query_length →
        (cfg.read_only && hitsWrite q) = false → hitsInjection q = true →
        validate_query cfg q = Verdict.suspiciousPattern)
    ∧ (∀ (cfg : SecurityConfig) (q : List Char) (k : List Char),
      q.all isSpaceC = false → q.length ≤ cfg.max_query_length →
        (cfg.read_only && hitsWrite q) = false → hitsInjection q = false →
        firstBlockedKeyword cfg q = some k →
        validate_query cfg q = Verdict.blockedKeyword k)
    ∧ (∀ (cfg : SecurityConfig) (q : List Char) (t : List Char),
      q.all isSpaceC = false → q.length ≤ cfg.max_query_length →
        (cfg.read_only && hitsWrite q) = false → hitsInjection q = false →
        firstBlockedKeyword cfg q = none → firstBlockedTable cfg q = some t →
        validate_query cfg q = Verdict.blockedTable t)
    ∧ (∀ (cfg : SecurityConfig) (q : List Char),
      q.all isSpaceC = false → q.length ≤ cfg.max_query_length →
        (cfg.read_only && hitsWrite q) = false → hitsInjection q = false →
        firstBlockedKeyword cfg q = none → firstBlockedTable cfg q = none →
        validate_query cfg q = Verdict.accepted)
    ∧ validate_query defaultSecurityConfig "SELECT * FROM users; --".data
        = Verdict.suspiciousPattern
    ∧ validate_query defaultSecurityConfig "DELETE FROM users".data
        = Verdict.writeInReadOnly
    ∧ validate_query rwEmptyConfig "DELETE FROM users".data
        = Verdict.accepted := by
  refine ⟨?_, ?_, ?_, ?_, ?_, ?_, ?_, by decide, by decide, by decide⟩
  · intro cfg q h
    simp [validate_query, h]
  · intro cfg q h1 h2
    simp [validate_query, h1, h2]
  · intro cfg q h1 h2 h3 h4
    simp [validate_query, h1, Nat.not_lt.mpr h2, h3, h4]
  · intro cfg q h1 h2 h3 h4
    simp [validate_query, h1, Nat.not_lt.mpr h2, h3, h4]
  · intro cfg q k h1 h2 h3 h4 h5
    simp [validate_query, h1, Nat.not_lt.mpr h2, h3, h4, h5]
  · intro cfg q t h1 h2 h3 h4 h5 h6
    simp [validate_query, h1, Nat.not_lt.mpr h2, h3, h4, h5, h6]
  · intro cfg q h1 h2 h3 h4 h5 h6
    simp [validate_query, h1, Nat.not_lt.mpr h2, h3, h4, h5, h6]

/-- Claim C3 witness: the first pipeline rule of
`C3_validate_query_pipeline` applied to the whitespace-only query `"  "`
under the default configuration. -/
theorem C3_validate_query_pipeline_witness :
    validate_query defaultSecurityConfig "  ".data = Verdict.emptyRequest :=
  C3_validate_query_pipeline.1 defaultSecurityConfig "  ".data (by decide)

/-- Unfolding one step of `runOps`. -/
theorem runOps_cons (cfg : PoolCfg) (s : PoolState) (op : PoolOp)
    (ops : List PoolOp) :
    runOps cfg s (op :: ops) = runOps cfg (applyOp cfg s op) ops := rfl

/-- After a shutdown, releases and further shutdowns never increase the
live count. -/
theorem tail_phase_bound (cfg : PoolCfg) :
    ∀ (ops : List PoolOp) (s : PoolState), tailOpsOk ops = true →
      liveCount s ≤ cfg.maxSize →
      liveCount (runOps cfg s ops) ≤ cfg.maxSize := by
  intro ops
  induction ops with
  | nil => intro s _ h; exact h
  | cons op r ih =>
      intro s hops hs
      cases op with
      | initIter => simp [tailOpsOk] at hops
      | acquire => simp [tailOpsOk] at hops
      | release =>
          have hops' : tailOpsOk r = true := hops
          rw [runOps_cons]
          refine ih _ hops' ?_
          by_cases h1 : 0 < s.checkedOut
          · by_cases h2 : s.idle < cfg.maxSize
            · have e : applyOp cfg s PoolOp.release
                  = { s with idle := s.idle + 1, checkedOut := s.checkedOut - 1 } := by
                simp [applyOp, releaseStep, h1, h2]
              rw [e]
              show s.idle + 1 + (s.checkedOut - 1) ≤ cfg.maxSize
              unfold liveCount at hs
              omega
            · have e : applyOp cfg s PoolOp.release
                  = { s with checkedOut := s.checkedOut - 1, active := s.active - 1 } := by
                simp [applyOp, releaseStep, h1, h2]
              rw [e]
              show s.idle + (s.checkedOut - 1) ≤ cfg.maxSize
              unfold liveCount at hs
              omega
          · have e : applyOp cfg s PoolOp.release = s := by
              simp [applyOp, h1]
            rw [e]; exact hs
      | shutdown =>
          have hops' : tailOpsOk r = true := hops
          rw [runOps_cons]
          refine ih _ hops' ?_
          show 0 + s.checkedOut ≤ cfg.maxSize
          unfold liveCount at hs
          omega

/-- Between initialization and shutdown, acquires and releases keep the
bookkeeping counter equal to the live count and below the bound; a
shutdown hands over to `tail_phase_bound`. -/
theorem mid_phase_bound (cfg : PoolCfg) :
    ∀ (ops : List PoolOp) (s : PoolState), midOpsOk ops = true →
      s.idle + s.checkedOut = s.active → s.active ≤ cfg.maxSize →
      liveCount (runOps cfg s ops) ≤ cfg.maxSize := by
  intro ops
  induction ops with
  | nil =>
      intro s _ h1 h2
      show s.idle + s.checkedOut ≤ cfg.maxSize
      omega
  | cons op r ih =>
      intro s hops h1 h2
      cases op with
      | initIter => simp [midOpsOk] at hops
      | acquire =>
          have hops' : midOpsOk r = true := hops
          rw [runOps_cons]
          by_cases ha : 0 < s.idle
          · have e : applyOp cfg s PoolOp.acquire
                = { s with idle := s.idle - 1, checkedOut := s.checkedOut + 1 } := by
              simp [applyOp, ha]
            refine ih _ hops' ?_ ?_
            · rw [e]
              show s.idle - 1 + (s.checkedOut + 1) = s.active
              omega
            · rw [e]; exact h2
          · by_cases hb : s.active < cfg.maxSize
            · have e : applyOp cfg s PoolOp.acquire
                  = { s with checkedOut := s.checkedOut + 1, active := s.active + 1 } := by
                simp [applyOp, ha, hb]
              refine ih _ hops' ?_ ?_
              · rw [e]
                show s.idle + (s.checkedOut + 1) = s.active + 1
                omega
              · rw [e]
                show s.active + 1 ≤ cfg.maxSize
                omega
            · have e : applyOp cfg s PoolOp.acquire = s := by
                simp [applyOp, ha, hb]
              rw [e]; exact ih _ hops' h1 h2
      | release =>
          have hops' : midOpsOk r = true := hops
          rw [runOps_cons]
          by_cases hc : 0 < s.checkedOut
          · by_cases hd : s.idle < cfg.maxSize
            · have e : applyOp cfg s PoolOp.release
                  = { s with idle := s.idle + 1, checkedOut := s.checkedOut - 1 } := by
                simp [applyOp, releaseStep, hc, hd]
              refine ih _ hops' ?_ ?_
              · rw [e]
                show s.idle + 1 + (s.checkedOut - 1) = s.active
                omega
              · rw [e]; exact h2
            · have e : applyOp cfg s PoolOp.release
                  = { s with checkedOut := s.checkedOut - 1, active := s.active - 1 } := by
                simp [applyOp, releaseStep, hc, hd]
              refine ih _ hops' ?_ ?_
              · rw [e]
                show s.idle + (s.checkedOut - 1) = s.active - 1
                omega
              · rw [e]
                show s.active - 1 ≤ cfg.maxSize
                omega
          · have e : applyOp cfg s PoolOp.release = s := by
              simp [applyOp, hc]
            rw [e]; exact ih _ hops' h1 h2
      | shutdown =>
          have hops' : tailOpsOk r = true := hops
          rw [runOps_cons]
          refine tail_phase_bound cfg r _ hops' ?_
          show 0 + s.checkedOut ≤ cfg.maxSize
          omega

/-- During initialization (no caller has acquired yet) every created
connection sits in the queue, the queue guard keeps the count below the
bound, and the remaining trace is handled by `mid_phase_bound`. -/
theorem init_phase_bound (cfg : PoolCfg) :
    ∀ (ops : List PoolOp) (s : PoolState), goodTrace ops = true →
      s.checkedOut = 0 → s.idle = s.active → s.active ≤ cfg.maxSize →
      liveCount (runOps cfg s ops) ≤ cfg.maxSize := by
  intro ops
  induction ops with
  | nil =>
      intro s _ h0 h1 h2
      show s.idle + s.checkedOut ≤ cfg.maxSize
      omega
  | cons op r ih =>
      intro s hops h0 h1 h2
      cases op with
      | initIter =>
          have hops' : goodTrace r = true := hops
          rw [runOps_cons]
          by_cases hg : s.idle < cfg.maxSize
          · have e : applyOp cfg s PoolOp.initIter
                = { s with idle := s.idle + 1, active := s.active + 1 } := by
              simp [applyOp, hg]
            refine ih _ hops' ?_ ?_ ?_
            · rw [e]; exact h0
            · rw [e]
              show s.idle + 1 = s.active + 1
              omega
            · rw [e]
              show s.active + 1 ≤ cfg.maxSize
              omega
          · have e : applyOp cfg s PoolOp.initIter = s := by
              simp [applyOp, hg]
            rw [e]; exact ih _ hops' h0 h1 h2
      | acquire =>
          have hops' : midOpsOk (PoolOp.acquire :: r) = true := hops
          exact mid_phase_bound cfg _ s hops' (by omega) h2
      | release =>
          have hops' : midOpsOk (PoolOp.release :: r) = true := hops
          exact mid_phase_bound cfg _ s hops' (by omega) h2
      | shutdown =>
          have hops' : midOpsOk (PoolOp.shutdown :: r) = true := hops
          exact mid_phase_bound cfg _ s hops' (by omega) h2

/-- Claim C1 (counterexample): with `min_size = max_size = 1`, the trace
Initialize, Acquire, Shutdown, Acquire leaves two live connections — the
overflow path of `acquire` recreates a connection against the zeroed
bookkeeping counter of the closed pool, exceeding `max_size = 1`. -/
theorem C1_live_count_exceeds_max_after_shutdown_acquire :
    (⟨1, 1⟩ : PoolCfg).maxSize < liveCount (runOps ⟨1, 1⟩ freshPool
      [PoolOp.initIter, PoolOp.acquire, PoolOp.shutdown, PoolOp.acquire])
    := by decide

/-- Claim C1 (amended): for every sequence consisting of one Initialize,
then Acquire/Release traffic, then at most one Shutdown followed only by
Releases, the live connection count (idle plus checked-out wrappers) never
exceeds `max_size` — including states reached through the overflow path of
`acquire`.  Well-formed traces are closed under prefixes, so this bounds
every intermediate state. -/
theorem C1_pool_live_count_bounded :
    ∀ (cfg : PoolCfg) (ops : List PoolOp), goodTrace ops = true →
      liveCount (runOps cfg freshPool ops) ≤ cfg.maxSize :=
  fun cfg ops h => init_phase_bound cfg ops freshPool h rfl rfl (Nat.zero_le _)

/-- Claim C1 witness: `C1_pool_live_count_bounded` on a concrete
well-formed trace that exercises initialization, overflow acquisition,
release and shutdown against `min_size = 2, max_size = 3`. -/
theorem C1_pool_live_count_bounded_witness :
    goodTrace [PoolOp.initIter, PoolOp.initIter, PoolOp.acquire,
      PoolOp.acquire, PoolOp.acquire, PoolOp.release, PoolOp.shutdown,
      PoolOp.release] = true
    ∧ liveCount (runOps ⟨2, 3⟩ freshPool
        [PoolOp.initIter, PoolOp.initIter, PoolOp.acquire,
         PoolOp.acquire, PoolOp.acquire, PoolOp.release, PoolOp.shutdown,
         PoolOp.release]) ≤ (⟨2, 3⟩ : PoolCfg).maxSize :=
  ⟨by decide, C1_pool_live_count_bounded ⟨2, 3⟩ _ (by decide)⟩

/-- If the `k+1`-st factory creation of the `initialize` loop raises, the
loop reports the exception and leaves the `k` connections created before
the failure in the queue and in the active count. -/
theorem initLoop_partial :
    ∀ (k n : Nat) (s : PoolState), k < n →
      initLoop n (List.replicate k true ++ [false]) s
        = (false, { s with idle := s.idle + k, active := s.active + k }) := by
  intro k
  induction k with
  | zero =>
      intro n s h
      cases n with
      | zero => exact absurd h (by omega)
      | succ m => simp [initLoop]
  | succ k ih =>
      intro n s h
      cases n with
      | zero => exact absurd h (by omega)
      | succ m =>
          have step : initLoop (m + 1) (List.replicate (k + 1) true ++ [false]) s
              = initLoop m (List.replicate k true ++ [false])
                  { s with idle := s.idle + 1, active := s.active + 1 } := by
            simp [initLoop, List.replicate_succ]
          rw [step, ih m _ (by omega)]
          have e1 : s.idle + 1 + k = s.idle + (k + 1) := by omega
          have e2 : s.active + 1 + k = s.active + (k + 1) := by omega
          show (false, (⟨s.idle + 1 + k, s.checkedOut, s.active + 1 + k⟩ : PoolState))
            = (false, (⟨s.idle + (k + 1), s.checkedOut, s.active + (k + 1)⟩ : PoolState))
          rw [e1, e2]

/-- Claim C6 (counterexample): with `min_size = 2`, a factory that succeeds
once and then raises makes `initialize()` propagate the error without
starting the health task, but the connection created first remains in the
queue and in the live count — a partial pool is left behind. -/
theorem C6_partial_pool_left_after_create_failure :
    runInit ⟨2, 10⟩ [true, false]
      = (false, false, { idle := 1, checkedOut := 0, active := 1 }) := by decide

/-- Claim C6 (amended): when the `k+1`-st of the `min_size` initial
creations fails, the factory error propagates (the loop does not complete)
and the health-audit task is not started, but the `k` connections created
earlier in the same `initialize()` call remain in the queue and in the
live count.  (The hypothesis `k ≤ maxSize` keeps the queue below its
capacity, so no `put` of the loop blocks.) -/
theorem C6_init_failure_propagates_keeps_created :
    ∀ (cfg : PoolCfg) (k : Nat), k < cfg.minSize → k ≤ cfg.maxSize →
      runInit cfg (List.replicate k true ++ [false])
        = (false, false, { idle := k, checkedOut := 0, active := k }) := by
  intro cfg k h _
  simp only [runInit, initLoop_partial k cfg.minSize freshPool h]
  show ((false, false, (⟨0 + k, 0, 0 + k⟩ : PoolState))
      : Bool × Bool × PoolState)
    = (false, false, (⟨k, 0, k⟩ : PoolState))
  rw [Nat.zero_add]

/-- Claim C6 witness: `C6_init_failure_propagates_keeps_created` at
`min_size = 2` with a failure on the second creation. -/
theorem C6_init_failure_propagates_keeps_created_witness :
    runInit ⟨2, 10⟩ (List.replicate 1 true ++ [false])
      = (false, false, { idle := 1, checkedOut := 0, active := 1 }) :=
  C6_init_failure_propagates_keeps_created ⟨2, 10⟩ 1 (by decide) (by decide)

/-- Claim C7 (counterexample): shut the pool down while one connection is
checked out; when the holder then releases it, `put_nowait` succeeds on
the drained queue, so the connection goes back to the idle queue open —
`_close_connection` is not invoked (first component `false`).  There is no
"closing" flag in the code. -/
theorem C7_release_after_shutdown_not_closed :
    releaseStep ⟨1, 1⟩ (runOps ⟨1, 1⟩ freshPool
        [PoolOp.initIter, PoolOp.acquire, PoolOp.shutdown])
      = (false, { idle := 1, checkedOut := 0, active := 0 }) := by decide

/-- Claim C7 (amended): releasing a checked-out connection against a pool
on which `close()` has completed never closes the connection: `close()`
drains the queue, so `put_nowait` in the `finally` block of `acquire`
succeeds and the open connection is returned to the idle queue of the
closed pool. -/
theorem C7_release_after_shutdown_requeues_open :
    ∀ (cfg : PoolCfg) (s : PoolState), 0 < cfg.maxSize →
      releaseStep cfg (applyOp cfg s PoolOp.shutdown)
        = (false, { idle := 1, checkedOut := s.checkedOut - 1, active := 0 }) := by
  intro cfg s h
  simp [applyOp, releaseStep, h]

/-- Claim C7 witness: `C7_release_after_shutdown_requeues_open` for a pool
of capacity 1 with one checked-out connection. -/
theorem C7_release_after_shutdown_requeues_open_witness :
    releaseStep ⟨1, 1⟩
        (applyOp ⟨1, 1⟩ { idle := 0, checkedOut := 1, active := 1 } PoolOp.shutdown)
      = (false, { idle := 1, checkedOut := 0, active := 0 }) :=
  C7_release_after_shutdown_requeues_open ⟨1, 1⟩
    { idle := 0, checkedOut := 1, active := 1 } (by decide)
